import Mathlib

/-!
Shallow embedding of scripts/us-treasury-auctions-to-ical.py.

Python datetimes are modelled as integers counting seconds since
1970-01-01T00:00:00 (naive datetime comparison and timedelta arithmetic
agree with integer comparison and arithmetic on this encoding); calendar
dates are the integer day count since 1970-01-01.  Fallible Python code
(KeyError on a missing dictionary key, ValueError from
datetime.fromisoformat, sys.exit(1)) is modelled with Except String.  The
ambient clock (datetime.now in the filter, datetime.utcnow in the event
builders) is passed as an explicit argument, and the one network request
and the three git subprocess calls are passed as explicit outcome values.
-/

/-- Proleptic-Gregorian leap-year test, as used by Python's datetime. -/
def isLeapYear (y : Nat) : Bool :=
  y % 4 == 0 && (y % 100 != 0 || y % 400 == 0)

/-- Number of days in month m of year y (m between 1 and 12). -/
def daysInMonth (y m : Nat) : Nat :=
  if m == 2 then (if isLeapYear y then 29 else 28)
  else if m == 4 || m == 6 || m == 9 || m == 11 then 30
  else 31

/-- Day count of the Gregorian date y-m-d since 1970-01-01, for y ≥ 1
(the civil-from-date conversion Python's datetime arithmetic realizes). -/
def daysFromCivil (y m d : Nat) : Int :=
  let yy := if m ≤ 2 then y - 1 else y
  let era := yy / 400
  let yoe := yy - era * 400
  let mp := if m > 2 then m - 3 else m + 9
  let doy := (153 * mp + 2) / 5 + d - 1
  let doe := yoe * 365 + yoe / 4 - yoe / 100 + doy
  (↑(era * 146097 + doe) : Int) - 719468

/-- Numeric value of two decimal digit characters. -/
def num2 (a b : Char) : Option Nat :=
  if a.isDigit && b.isDigit then
    some ((a.toNat - 48) * 10 + (b.toNat - 48))
  else none

/-- Numeric value of four decimal digit characters. -/
def num4 (a b c d : Char) : Option Nat :=
  if a.isDigit && b.isDigit && c.isDigit && d.isDigit then
    some ((a.toNat - 48) * 1000 + (b.toNat - 48) * 100 + (c.toNat - 48) * 10 + (d.toNat - 48))
  else none

/-- Model of datetime.fromisoformat on the shapes this feed carries:
"YYYY-MM-DD" and "YYYY-MM-DD*HH:MM:SS" (any single separator character,
as Python 3.11 accepts).  Returns the instant as seconds since
1970-01-01T00:00:00, or none where Python raises ValueError (malformed
text, month, day, hour, minute or second out of range, year 0). -/
def fromisoformat (s : String) : Option Int :=
  match s.data with
  | [y1, y2, y3, y4, '-', m1, m2, '-', d1, d2] =>
    match num4 y1 y2 y3 y4, num2 m1 m2, num2 d1 d2 with
    | some y, some m, some d =>
      if 1 ≤ y ∧ 1 ≤ m ∧ m ≤ 12 ∧ 1 ≤ d ∧ d ≤ daysInMonth y m then
        some (daysFromCivil y m d * 86400)
      else none
    | _, _, _ => none
  | [y1, y2, y3, y4, '-', m1, m2, '-', d1, d2, _, h1, h2, ':', n1, n2, ':', s1, s2] =>
    match num4 y1 y2 y3 y4, num2 m1 m2, num2 d1 d2, num2 h1 h2, num2 n1 n2, num2 s1 s2 with
    | some y, some m, some d, some hh, some nn, some ss =>
      if 1 ≤ y ∧ 1 ≤ m ∧ m ≤ 12 ∧ 1 ≤ d ∧ d ≤ daysInMonth y m ∧ hh ≤ 23 ∧ nn ≤ 59 ∧ ss ≤ 59 then
        some (daysFromCivil y m d * 86400 + (↑(hh * 3600 + nn * 60 + ss) : Int))
      else none
    | _, _, _, _, _, _ => none
  | _ => none

/-- Character-level model of date_str.replace("T00:00:00", ""): removes
every occurrence of the nine-character pattern, scanning left to right
over non-overlapping occurrences, as Python str.replace does. -/
def stripMidnight : List Char → List Char
  | 'T' :: '0' :: '0' :: ':' :: '0' :: '0' :: ':' :: '0' :: '0' :: rest => stripMidnight rest
  | c :: rest => c :: stripMidnight rest
  | [] => []

/-- parse_date from the script:
datetime.fromisoformat(date_str.replace("T00:00:00", "")). -/
def parse_date (date_str : String) : Option Int :=
  fromisoformat (String.mk (stripMidnight date_str.data))

/-- datetime.date(): the calendar day holding instant t. -/
def dateOf (t : Int) : Int := Int.fdiv t 86400

/-- Python string slicing s[:n], counting code points. -/
def strTake (s : String) (n : Nat) : String := String.mk (s.data.take n)

/-- One security record of the TreasuryDirect JSON feed.  Every field is
optional: a key missing from the JSON object is none; dictionary access
security["k"] fails with KeyError on none, security.get("k") yields the
optional value.  Values are kept as the strings Python would interpolate. -/
structure Security where
  cusip : Option String := none
  securityType : Option String := none
  securityTerm : Option String := none
  announcementDate : Option String := none
  auctionDate : Option String := none
  issueDate : Option String := none
  maturityDate : Option String := none
  offeringAmount : Option String := none
  closingTimeCompetitive : Option String := none
  closingTimeNoncompetitive : Option String := none
deriving DecidableEq

/-- An iCalendar start value: the script always passes a Python date
(never a datetime) to dtstart, which icalendar serializes as a date-only
DATE value; vDateTime is the timed alternative it never produces. -/
inductive ICalDate where
  | vDate (day : Int)
  | vDateTime (seconds : Int)
deriving DecidableEq

/-- One VEVENT with the five properties the script sets besides dtstamp. -/
structure Event where
  uid : String
  dtstamp : Int
  dtstart : ICalDate
  summary : String
  description : String
  categories : List String
deriving DecidableEq

/-- The VCALENDAR document: fixed metadata plus ordered subcomponents. -/
structure Calendar where
  prodid : String
  version : String
  subcomponents : List Event
deriving DecidableEq

/-- Appends "label + value" when the optional field is truthy (present
and nonempty), mirroring the walrus-guarded appends in the script. -/
def appendIfTruthy (parts : List String) (field : Option String) (label : String) : List String :=
  match field with
  | none => parts
  | some v => if v = "" then parts else parts ++ [label ++ v]

/-- Description lines of an announcement event (script lines 70-76); the
maturity line shows only the first ten characters of the field. -/
def announcement_parts (auctionDateStr cusip : String)
    (offeringAmount maturityDate : Option String) : List String :=
  let parts := ["Auction Date: " ++ auctionDateStr,
                "CUSIP: " ++ cusip,
                "Offering Amount: $" ++ offeringAmount.getD "TBD"]
  match maturityDate with
  | none => parts
  | some m => if m = "" then parts else parts ++ ["Maturity Date: " ++ strTake m 10]

/-- Description lines of an auction event (script lines 98-111); the
maturity line shows the whole field. -/
def auction_parts (cusip securityTerm : String)
    (offeringAmount closingTimeCompetitive closingTimeNoncompetitive
      issueDate maturityDate : Option String) : List String :=
  let parts := ["CUSIP: " ++ cusip,
                "Security Term: " ++ securityTerm,
                "Offering Amount: $" ++ offeringAmount.getD "TBD"]
  let parts := appendIfTruthy parts closingTimeCompetitive "Competitive Closing: "
  let parts := appendIfTruthy parts closingTimeNoncompetitive "Non-Competitive Closing: "
  let parts := appendIfTruthy parts issueDate "Issue Date: "
  appendIfTruthy parts maturityDate "Maturity Date: "

/-- create_announcement_event: the nested matches perform the dictionary
accesses and fromisoformat calls in the order the Python statements
execute them, failing where Python raises. -/
def create_announcement_event (utcnow : Int) (security : Security) : Except String Event :=
  match security.announcementDate with
  | none => .error "KeyError: announcementDate"
  | some annStr =>
    match parse_date annStr with
    | none => .error ("Invalid isoformat string: " ++ annStr)
    | some announcement_date =>
      match security.cusip with
      | none => .error "KeyError: cusip"
      | some cusip =>
        match security.securityTerm with
        | none => .error "KeyError: securityTerm"
        | some securityTerm =>
          match security.securityType with
          | none => .error "KeyError: securityType"
          | some securityType =>
            match security.auctionDate with
            | none => .error "KeyError: auctionDate"
            | some auctionDateStr =>
              .ok { uid := cusip ++ "-announcement@treasurydirect.gov",
                    dtstamp := utcnow,
                    dtstart := .vDate (dateOf announcement_date),
                    summary := securityTerm ++ " " ++ securityType ++ " Auction Announced",
                    description := String.intercalate "\n"
                      (announcement_parts auctionDateStr cusip
                        security.offeringAmount security.maturityDate),
                    categories := ["Treasury", "Announcement", securityType] }

/-- create_auction_event: script line 90 parses announcementDate even
though the parsed value is never used in the event that is returned. -/
def create_auction_event (utcnow : Int) (security : Security) : Except String Event :=
  match security.auctionDate with
  | none => .error "KeyError: auctionDate"
  | some aucStr =>
    match parse_date aucStr with
    | none => .error ("Invalid isoformat string: " ++ aucStr)
    | some auction_date =>
      match security.announcementDate with
      | none => .error "KeyError: announcementDate"
      | some annStr =>
        match parse_date annStr with
        | none => .error ("Invalid isoformat string: " ++ annStr)
        | some _ =>
          match security.cusip with
          | none => .error "KeyError: cusip"
          | some cusip =>
            match security.securityTerm with
            | none => .error "KeyError: securityTerm"
            | some securityTerm =>
              match security.securityType with
              | none => .error "KeyError: securityType"
              | some securityType =>
                .ok { uid := cusip ++ "-auction@treasurydirect.gov",
                      dtstamp := utcnow,
                      dtstart := .vDate (dateOf auction_date),
                      summary := securityTerm ++ " " ++ securityType ++ " Auction",
                      description := String.intercalate "\n"
                        (auction_parts cusip securityTerm security.offeringAmount
                          security.closingTimeCompetitive security.closingTimeNoncompetitive
                          security.issueDate security.maturityDate),
                      categories := ["Treasury", "Auction", securityType] }

/-- The accumulator loop inside filter_securities. -/
def filter_securities_from (cutoff : Int) (filtered : List Security) :
    List Security → Except String (List Security)
  | [] => .ok filtered
  | security :: rest =>
    match security.auctionDate with
    | none => .error "KeyError: auctionDate"
    | some str =>
      match parse_date str with
      | none => .error ("Invalid isoformat string: " ++ str)
      | some auction_date =>
        if cutoff ≤ auction_date then
          filter_securities_from cutoff (filtered ++ [security]) rest
        else
          filter_securities_from cutoff filtered rest

/-- filter_securities: cutoff_date = now - timedelta(days=days_back); a
record is appended exactly when its parsed auction date is not below the
cutoff.  An unparseable auctionDate aborts the whole call, as the
uncaught ValueError does in Python. -/
def filter_securities (now : Int) (securities : List Security) (days_back : Int) :
    Except String (List Security) :=
  filter_securities_from (now - 86400 * days_back) [] securities

/-- The first conditional of the generate_calendar loop body: append the
announcement event when that kind is requested. -/
def add_announcement_step (utcnow : Int) (event_types : List String)
    (cal : Calendar) (security : Security) : Except String Calendar :=
  if event_types.contains "announcement" then
    (create_announcement_event utcnow security).map (fun e =>
      { cal with subcomponents := cal.subcomponents ++ [e] })
  else .ok cal

/-- The second conditional of the generate_calendar loop body: append the
auction event when that kind is requested. -/
def add_auction_step (utcnow : Int) (event_types : List String)
    (cal : Calendar) (security : Security) : Except String Calendar :=
  if event_types.contains "auction" then
    (create_auction_event utcnow security).map (fun e =>
      { cal with subcomponents := cal.subcomponents ++ [e] })
  else .ok cal

/-- The loop body of generate_calendar for one security: append the
announcement event and then the auction event, each when requested. -/
def add_security_events (utcnow : Int) (event_types : List String)
    (cal : Calendar) (security : Security) : Except String Calendar :=
  match add_announcement_step utcnow event_types cal security with
  | .error msg => .error msg
  | .ok cal1 => add_auction_step utcnow event_types cal1 security

/-- The for-loop of generate_calendar over the securities. -/
def add_all_securities (utcnow : Int) (event_types : List String)
    (cal : Calendar) : List Security → Except String Calendar
  | [] => .ok cal
  | security :: rest =>
    match add_security_events utcnow event_types cal security with
    | .error msg => .error msg
    | .ok cal1 => add_all_securities utcnow event_types cal1 rest

/-- generate_calendar: a fresh calendar with the fixed prodid and
version, then one or two events per security in input order. -/
def generate_calendar (utcnow : Int) (securities : List Security)
    (event_types : List String) : Except String Calendar :=
  add_all_securities utcnow event_types
    { prodid := "-//Treasury Auction Calendar//elmotec.github.io//",
      version := "2.0", subcomponents := [] } securities

/-- The events a single security contributes, announcement first. -/
def security_events (utcnow : Int) (event_types : List String) (security : Security) :
    Except String (List Event) :=
  match (if event_types.contains "announcement" then
          (create_announcement_event utcnow security).map (fun e => [e])
        else .ok []) with
  | .error msg => .error msg
  | .ok anns =>
    match (if event_types.contains "auction" then
            (create_auction_event utcnow security).map (fun e => [e])
          else .ok []) with
    | .error msg => .error msg
    | .ok aucs => .ok (anns ++ aucs)

/-- Concatenation of each security's events in input order. -/
def events_of_securities (utcnow : Int) (event_types : List String) :
    List Security → Except String (List Event)
  | [] => .ok []
  | s :: rest =>
    match security_events utcnow event_types s with
    | .error msg => .error msg
    | .ok es =>
      match events_of_securities utcnow event_types rest with
      | .error msg => .error msg
      | .ok rests => .ok (es ++ rests)

/-- True when the Except value is an error, i.e. the Python call raised
or exited. -/
def isError {α : Type} : Except String α → Bool
  | .error _ => true
  | .ok _ => false

/-- A description line announcing a maturity date. -/
def isMaturityLine (p : String) : Bool :=
  "Maturity Date: ".data.isPrefixOf p.data

/-- Whether any description line announces a maturity date. -/
def hasMaturityLine (parts : List String) : Bool := parts.any isMaturityLine

/-- Forgets the generation timestamp of one event. -/
def eraseDtstamp (e : Event) : Event := { e with dtstamp := 0 }

/-- Forgets the generation timestamps of a whole calendar. -/
def eraseCalendarDtstamps (c : Calendar) : Calendar :=
  { c with subcomponents := c.subcomponents.map eraseDtstamp }

/-- Outcome of the one requests.get call: success with the decoded JSON
body, or any requests.RequestException (connection failure, DNS failure,
timeout, or the HTTPError that raise_for_status turns a non-2xx status
such as HTTP 500 into). -/
inductive FetchOutcome where
  | success (records : List Security)
  | failure (msg : String)
deriving DecidableEq

/-- fetch_treasury_data: on RequestException the script logs the error
and calls sys.exit(1); the error branch models that exit. -/
def fetch_treasury_data : FetchOutcome → Except String (List Security)
  | .success records => .ok records
  | .failure msg => .error msg

/-- Behavior of the external git tool during commit_and_push. -/
structure GitEnv where
  hasChanges : Bool
  commitSucceeds : Bool
  pushSucceeds : Bool
deriving DecidableEq

/-- commit_and_push: a clean index is a successful no-op; a failing
commit or push logs and exits 1 (modelled as the error branch). -/
def commit_and_push (g : GitEnv) : Except String Unit :=
  if !g.hasChanges then .ok ()
  else if !g.commitSucceeds then .error "Error committing changes"
  else if !g.pushSucceeds then .error "Error pushing changes"
  else .ok ()

/-- Observable outcome of one run: the process exit code, and the
contents of the output file after the run (some calendar once
save_calendar has overwritten it, otherwise whatever was on disk
before). -/
structure RunResult where
  exitCode : Nat
  outputFile : Option Calendar
deriving DecidableEq

/-- The main function of the script (named main there): fetch, filter, generate, save, optionally commit and push.
sys.exit(1) and every uncaught exception terminate the interpreter with
exit code 1; the output file is only rewritten once generation has
succeeded and save_calendar runs. -/
def main_run (fetch : FetchOutcome) (now utcnow : Int) (g : GitEnv) (commit : Bool)
    (days_back : Int) (event_types : List String) (priorFile : Option Calendar) : RunResult :=
  match fetch_treasury_data fetch with
  | .error _ => { exitCode := 1, outputFile := priorFile }
  | .ok securities =>
    match filter_securities now securities days_back with
    | .error _ => { exitCode := 1, outputFile := priorFile }
    | .ok filtered =>
      match generate_calendar utcnow filtered event_types with
      | .error _ => { exitCode := 1, outputFile := priorFile }
      | .ok calendar =>
        if commit then
          match commit_and_push g with
          | .error _ => { exitCode := 1, outputFile := some calendar }
          | .ok _ => { exitCode := 0, outputFile := some calendar }
        else { exitCode := 0, outputFile := some calendar }

/-- A line built from the "Auction Date: " label is never a maturity line. -/
theorem isMaturityLine_auctionDateLine (x : String) :
    isMaturityLine ("Auction Date: " ++ x) = false := by
  obtain ⟨xd⟩ := x
  rfl

/-- A line built from the "CUSIP: " label is never a maturity line. -/
theorem isMaturityLine_cusipLine (x : String) :
    isMaturityLine ("CUSIP: " ++ x) = false := by
  obtain ⟨xd⟩ := x
  rfl

/-- A line built from the "Offering Amount: $" label is never a maturity line. -/
theorem isMaturityLine_offeringLine (x : String) :
    isMaturityLine ("Offering Amount: $" ++ x) = false := by
  obtain ⟨xd⟩ := x
  rfl

/-- A line built from the "Security Term: " label is never a maturity line. -/
theorem isMaturityLine_securityTermLine (x : String) :
    isMaturityLine ("Security Term: " ++ x) = false := by
  obtain ⟨xd⟩ := x
  rfl

/-- A line built from the "Competitive Closing: " label is never a maturity line. -/
theorem isMaturityLine_competitiveLine (x : String) :
    isMaturityLine ("Competitive Closing: " ++ x) = false := by
  obtain ⟨xd⟩ := x
  rfl

/-- A line built from the "Non-Competitive Closing: " label is never a maturity line. -/
theorem isMaturityLine_noncompetitiveLine (x : String) :
    isMaturityLine ("Non-Competitive Closing: " ++ x) = false := by
  obtain ⟨xd⟩ := x
  rfl

/-- A line built from the "Issue Date: " label is never a maturity line. -/
theorem isMaturityLine_issueDateLine (x : String) :
    isMaturityLine ("Issue Date: " ++ x) = false := by
  obtain ⟨xd⟩ := x
  rfl

/-- Appending a line under a label that is not "Maturity Date: " cannot
introduce a maturity line. -/
theorem hasMaturityLine_appendIfTruthy (parts : List String) (f : Option String) (label : String)
    (h : ∀ x : String, isMaturityLine (label ++ x) = false) :
    hasMaturityLine (appendIfTruthy parts f label) = hasMaturityLine parts := by
  cases f with
  | none => rfl
  | some v =>
    by_cases hv : v = "" <;>
      simp [appendIfTruthy, hv, hasMaturityLine, List.any_append, h]

/-- Mapping over an Except value cannot change whether it is an error. -/
theorem isError_map {α β : Type} (f : α → β) (x : Except String α) :
    isError (x.map f) = isError x := by
  cases x <;> rfl

/-- Pre-existing lines survive a conditional append. -/
theorem mem_appendIfTruthy (parts : List String) (f : Option String) (label : String)
    (x : String) (h : x ∈ parts) : x ∈ appendIfTruthy parts f label := by
  cases f with
  | none => exact h
  | some v =>
    by_cases hv : v = "" <;> simp [appendIfTruthy, hv, h]

/-- The base lines of an announcement description hold no maturity line. -/
theorem hasMaturityLine_announcement_none (aucD c : String) (off : Option String) :
    hasMaturityLine (announcement_parts aucD c off none) = false := by
  show (isMaturityLine ("Auction Date: " ++ aucD) ||
        (isMaturityLine ("CUSIP: " ++ c) ||
          (isMaturityLine ("Offering Amount: $" ++ off.getD "TBD") || false))) = false
  rw [isMaturityLine_auctionDateLine, isMaturityLine_cusipLine, isMaturityLine_offeringLine]
  rfl

/-- The lines of an auction description with no maturity date hold no
maturity line, whatever the other optional fields carry. -/
theorem hasMaturityLine_auction_none (c term : String) (off cc cn iss : Option String) :
    hasMaturityLine (auction_parts c term off cc cn iss none) = false := by
  unfold auction_parts
  show hasMaturityLine
      (appendIfTruthy (appendIfTruthy (appendIfTruthy
        ["CUSIP: " ++ c, "Security Term: " ++ term, "Offering Amount: $" ++ off.getD "TBD"]
        cc "Competitive Closing: ") cn "Non-Competitive Closing: ") iss "Issue Date: ") = false
  rw [hasMaturityLine_appendIfTruthy _ _ _ isMaturityLine_issueDateLine,
    hasMaturityLine_appendIfTruthy _ _ _ isMaturityLine_noncompetitiveLine,
    hasMaturityLine_appendIfTruthy _ _ _ isMaturityLine_competitiveLine]
  show (isMaturityLine ("CUSIP: " ++ c) ||
        (isMaturityLine ("Security Term: " ++ term) ||
          (isMaturityLine ("Offering Amount: $" ++ off.getD "TBD") || false))) = false
  rw [isMaturityLine_cusipLine, isMaturityLine_securityTermLine, isMaturityLine_offeringLine]
  rfl

/-- The announcement event depends on the clock only through dtstamp. -/
theorem create_announcement_event_erase (t1 t2 : Int) (s : Security) :
    (create_announcement_event t1 s).map eraseDtstamp =
      (create_announcement_event t2 s).map eraseDtstamp := by
  obtain ⟨cu, ty, te, ad, aud, idate, md, oa, cc, cn⟩ := s
  unfold create_announcement_event
  dsimp only
  cases ad with
  | none => rfl
  | some a =>
    dsimp only
    cases parse_date a with
    | none => rfl
    | some v =>
      cases cu with
      | none => rfl
      | some c =>
        cases te with
        | none => rfl
        | some te1 =>
          cases ty with
          | none => rfl
          | some ty1 =>
            cases aud with
            | none => rfl
            | some au1 => rfl

/-- The auction event depends on the clock only through dtstamp. -/
theorem create_auction_event_erase (t1 t2 : Int) (s : Security) :
    (create_auction_event t1 s).map eraseDtstamp =
      (create_auction_event t2 s).map eraseDtstamp := by
  obtain ⟨cu, ty, te, ad, aud, idate, md, oa, cc, cn⟩ := s
  unfold create_auction_event
  dsimp only
  cases aud with
  | none => rfl
  | some au =>
    dsimp only
    cases parse_date au with
    | none => rfl
    | some v =>
      cases ad with
      | none => rfl
      | some a =>
        dsimp only
        cases parse_date a with
        | none => rfl
        | some v2 =>
          cases cu with
          | none => rfl
          | some c =>
            cases te with
            | none => rfl
            | some te1 =>
              cases ty with
              | none => rfl
              | some ty1 => rfl

/-- Appending dtstamp-equal events to dtstamp-equal calendars keeps them
dtstamp-equal. -/
theorem calendar_append_erase (c1 c2 : Calendar) (e1 e2 : Event)
    (h : eraseCalendarDtstamps c1 = eraseCalendarDtstamps c2)
    (he : eraseDtstamp e1 = eraseDtstamp e2) :
    eraseCalendarDtstamps { c1 with subcomponents := c1.subcomponents ++ [e1] } =
      eraseCalendarDtstamps { c2 with subcomponents := c2.subcomponents ++ [e2] } := by
  obtain ⟨p1, v1, s1⟩ := c1
  obtain ⟨p2, v2, s2⟩ := c2
  simp only [eraseCalendarDtstamps, Calendar.mk.injEq, List.map_append, List.map_cons,
    List.map_nil] at h ⊢
  exact ⟨h.1, h.2.1, by rw [h.2.2, he]⟩

/-- One conditional append step preserves dtstamp-equality of results. -/
theorem step_erase (cr1 cr2 : Except String Event) (c1 c2 : Calendar) (b : Bool)
    (hcr : cr1.map eraseDtstamp = cr2.map eraseDtstamp)
    (h : eraseCalendarDtstamps c1 = eraseCalendarDtstamps c2) :
    ((if b then cr1.map (fun e => { c1 with subcomponents := c1.subcomponents ++ [e] })
      else .ok c1)).map eraseCalendarDtstamps =
    ((if b then cr2.map (fun e => { c2 with subcomponents := c2.subcomponents ++ [e] })
      else .ok c2)).map eraseCalendarDtstamps := by
  cases b with
  | false =>
    show Except.ok (eraseCalendarDtstamps c1) = Except.ok (eraseCalendarDtstamps c2)
    rw [h]
  | true =>
    cases cr1 with
    | error m1 =>
      cases cr2 with
      | error m2 =>
        simp only [Except.map, Except.error.injEq] at hcr
        show (Except.error m1 : Except String Calendar) = Except.error m2
        rw [hcr]
      | ok e2 => simp [Except.map] at hcr
    | ok e1 =>
      cases cr2 with
      | error m2 => simp [Except.map] at hcr
      | ok e2 =>
        simp only [Except.map, Except.ok.injEq] at hcr
        show Except.ok (eraseCalendarDtstamps
            { c1 with subcomponents := c1.subcomponents ++ [e1] }) =
          Except.ok (eraseCalendarDtstamps
            { c2 with subcomponents := c2.subcomponents ++ [e2] })
        rw [calendar_append_erase c1 c2 e1 e2 h hcr]

/-- The announcement step preserves dtstamp-equality. -/
theorem add_announcement_step_erase (t1 t2 : Int) (kinds : List String) (s : Security)
    (c1 c2 : Calendar) (h : eraseCalendarDtstamps c1 = eraseCalendarDtstamps c2) :
    (add_announcement_step t1 kinds c1 s).map eraseCalendarDtstamps =
      (add_announcement_step t2 kinds c2 s).map eraseCalendarDtstamps :=
  step_erase _ _ c1 c2 _ (create_announcement_event_erase t1 t2 s) h

/-- The auction step preserves dtstamp-equality. -/
theorem add_auction_step_erase (t1 t2 : Int) (kinds : List String) (s : Security)
    (c1 c2 : Calendar) (h : eraseCalendarDtstamps c1 = eraseCalendarDtstamps c2) :
    (add_auction_step t1 kinds c1 s).map eraseCalendarDtstamps =
      (add_auction_step t2 kinds c2 s).map eraseCalendarDtstamps :=
  step_erase _ _ c1 c2 _ (create_auction_event_erase t1 t2 s) h

/-- One whole loop iteration preserves dtstamp-equality. -/
theorem add_security_events_erase (t1 t2 : Int) (kinds : List String) (s : Security)
    (c1 c2 : Calendar) (h : eraseCalendarDtstamps c1 = eraseCalendarDtstamps c2) :
    (add_security_events t1 kinds c1 s).map eraseCalendarDtstamps =
      (add_security_events t2 kinds c2 s).map eraseCalendarDtstamps := by
  unfold add_security_events
  have h1 := add_announcement_step_erase t1 t2 kinds s c1 c2 h
  cases e1 : add_announcement_step t1 kinds c1 s with
  | error m1 =>
    cases e2 : add_announcement_step t2 kinds c2 s with
    | error m2 =>
      rw [e1, e2] at h1
      simpa [Except.map] using h1
    | ok d2 =>
      rw [e1, e2] at h1
      simp [Except.map] at h1
  | ok d1 =>
    cases e2 : add_announcement_step t2 kinds c2 s with
    | error m2 =>
      rw [e1, e2] at h1
      simp [Except.map] at h1
    | ok d2 =>
      rw [e1, e2] at h1
      simp only [Except.map, Except.ok.injEq] at h1
      exact add_auction_step_erase t1 t2 kinds s d1 d2 h1

/-- The whole loop preserves dtstamp-equality. -/
theorem add_all_securities_erase (t1 t2 : Int) (kinds : List String) (secs : List Security) :
    ∀ c1 c2 : Calendar, eraseCalendarDtstamps c1 = eraseCalendarDtstamps c2 →
      (add_all_securities t1 kinds c1 secs).map eraseCalendarDtstamps =
        (add_all_securities t2 kinds c2 secs).map eraseCalendarDtstamps := by
  induction secs with
  | nil =>
    intro c1 c2 h
    simpa [add_all_securities, Except.map] using h
  | cons s rest ih =>
    intro c1 c2 h
    unfold add_all_securities
    have h1 := add_security_events_erase t1 t2 kinds s c1 c2 h
    cases e1 : add_security_events t1 kinds c1 s with
    | error m1 =>
      cases e2 : add_security_events t2 kinds c2 s with
      | error m2 =>
        rw [e1, e2] at h1
        simpa [Except.map] using h1
      | ok d2 =>
        rw [e1, e2] at h1
        simp [Except.map] at h1
    | ok d1 =>
      cases e2 : add_security_events t2 kinds c2 s with
      | error m2 =>
        rw [e1, e2] at h1
        simp [Except.map] at h1
      | ok d2 =>
        rw [e1, e2] at h1
        simp only [Except.map, Except.ok.injEq] at h1
        exact ih d1 d2 h1

/-- One loop iteration appends exactly the security's events, in the
order announcement-then-auction, to the calendar built so far. -/
theorem add_security_events_eq_security_events (t : Int) (kinds : List String)
    (cal : Calendar) (s : Security) :
    add_security_events t kinds cal s =
      (security_events t kinds s).map
        (fun es => { cal with subcomponents := cal.subcomponents ++ es }) := by
  unfold add_security_events security_events add_announcement_step add_auction_step
  cases hA : kinds.contains "announcement" with
  | false =>
    cases hB : kinds.contains "auction" with
    | false => simp [Except.map]
    | true =>
      cases create_auction_event t s with
      | error m => rfl
      | ok e => rfl
  | true =>
    cases create_announcement_event t s with
    | error m => rfl
    | ok e1 =>
      cases hB : kinds.contains "auction" with
      | false => simp [Except.map]
      | true =>
        cases create_auction_event t s with
        | error m => rfl
        | ok e2 =>
          show Except.ok _ = Except.ok _
          rw [Except.ok.injEq, Calendar.mk.injEq]
          exact ⟨rfl, rfl, List.append_assoc _ _ _⟩

/-- The generate_calendar loop produces, in input order, the
concatenation of each security's events. -/
theorem add_all_securities_eq (t : Int) (kinds : List String) (secs : List Security) :
    ∀ cal : Calendar,
      add_all_securities t kinds cal secs =
        (events_of_securities t kinds secs).map
          (fun evs => { cal with subcomponents := cal.subcomponents ++ evs }) := by
  induction secs with
  | nil =>
    intro cal
    show Except.ok cal = Except.ok _
    rw [Except.ok.injEq]
    cases cal with
    | mk p v subs => simp
  | cons s rest ih =>
    intro cal
    unfold add_all_securities events_of_securities
    rw [add_security_events_eq_security_events]
    cases security_events t kinds s with
    | error m => rfl
    | ok es =>
      show add_all_securities t kinds { cal with subcomponents := cal.subcomponents ++ es } rest = _
      rw [ih]
      cases events_of_securities t kinds rest with
      | error m => rfl
      | ok rests =>
        show Except.ok _ = Except.ok _
        rw [Except.ok.injEq, Calendar.mk.injEq]
        exact ⟨rfl, rfl, List.append_assoc _ _ _⟩

/-- The filter loop returns the accumulator extended by a subsequence of
its input list. -/
theorem filter_securities_from_sublist (cutoff : Int) (l : List Security) :
    ∀ acc out, filter_securities_from cutoff acc l = .ok out →
      ∃ kept, out = acc ++ kept ∧ List.Sublist kept l := by
  induction l with
  | nil =>
    intro acc out h
    refine ⟨[], ?_, List.nil_sublist _⟩
    have : acc = out := by
      have h2 : (Except.ok acc : Except String (List Security)) = .ok out := h
      rw [Except.ok.injEq] at h2
      exact h2
    rw [← this, List.append_nil]
  | cons s rest ih =>
    intro acc out h
    unfold filter_securities_from at h
    split at h
    · cases h
    · split at h
      · cases h
      · split at h
        · obtain ⟨kept, hout, hsub⟩ := ih (acc ++ [s]) out h
          refine ⟨s :: kept, ?_, List.Sublist.cons₂ s hsub⟩
          rw [hout]
          exact List.append_assoc _ _ _
        · obtain ⟨kept, hout, hsub⟩ := ih acc out h
          exact ⟨kept, hout, List.Sublist.cons s hsub⟩

/-- An unparseable auction date anywhere in the list makes the filter
loop fail, whatever the accumulator holds. -/
theorem filter_securities_from_error (cutoff : Int) (l : List Security) (s : Security)
    (str : String) (hs : s.auctionDate = some str) (hp : parse_date str = none) :
    ∀ acc, s ∈ l → isError (filter_securities_from cutoff acc l) = true := by
  induction l with
  | nil =>
    intro acc hmem
    exact absurd hmem (List.not_mem_nil s)
  | cons a rest ih =>
    intro acc hmem
    unfold filter_securities_from
    split
    · rfl
    next astr hau =>
      split
      · rfl
      next v hpa =>
        rcases List.mem_cons.mp hmem with heq | hmem2
        · subst heq
          rw [hau, Option.some.injEq] at hs
          subst hs
          rw [hp] at hpa
          cases hpa
        · split
          · exact ih _ hmem2
          · exact ih _ hmem2

/-- The announcementDate of the record is missing or unparseable. -/
def badAnnouncementDate (s : Security) : Prop :=
  s.announcementDate = none ∨
    ∃ str, s.announcementDate = some str ∧ parse_date str = none

/-- A bad announcementDate makes create_auction_event fail. -/
theorem create_auction_event_error_of_bad (t : Int) (s : Security)
    (h : badAnnouncementDate s) : isError (create_auction_event t s) = true := by
  unfold create_auction_event
  split
  · rfl
  next aucStr hau =>
    split
    · rfl
    next v hpa =>
      split
      · rfl
      next annStr hann =>
        split
        · rfl
        next v2 hpann =>
          rcases h with h1 | ⟨str, h1, h2⟩
          · rw [hann] at h1
            cases h1
          · rw [hann, Option.some.injEq] at h1
            subst h1
            rw [h2] at hpann
            cases hpann

/-- A bad announcementDate makes create_announcement_event fail. -/
theorem create_announcement_event_error_of_bad (t : Int) (s : Security)
    (h : badAnnouncementDate s) : isError (create_announcement_event t s) = true := by
  unfold create_announcement_event
  split
  · rfl
  next annStr hann =>
    split
    · rfl
    next v hpann =>
      rcases h with h1 | ⟨str, h1, h2⟩
      · rw [hann] at h1
        cases h1
      · rw [hann, Option.some.injEq] at h1
        subst h1
        rw [h2] at hpann
        cases hpann

/-- With auction events requested, a bad announcementDate makes the loop
body fail for that security. -/
theorem add_security_events_error_of_bad (t : Int) (kinds : List String) (cal : Calendar)
    (s : Security) (h : badAnnouncementDate s) (hk : kinds.contains "auction" = true) :
    isError (add_security_events t kinds cal s) = true := by
  unfold add_security_events add_announcement_step add_auction_step
  have hauc := create_auction_event_error_of_bad t s h
  cases hA : kinds.contains "announcement" with
  | false =>
    show isError (if kinds.contains "auction" then _ else _) = true
    rw [hk]
    show isError ((create_auction_event t s).map _) = true
    rw [isError_map]
    exact hauc
  | true =>
    have hann := create_announcement_event_error_of_bad t s h
    cases hce : create_announcement_event t s with
    | error m => rfl
    | ok e => rw [hce] at hann; cases hann

/-- With auction events requested, a bad announcementDate anywhere in the
list makes the whole loop fail. -/
theorem add_all_securities_error_of_bad (t : Int) (kinds : List String) (s : Security)
    (h : badAnnouncementDate s) (hk : kinds.contains "auction" = true) :
    ∀ (secs : List Security) (cal : Calendar), s ∈ secs →
      isError (add_all_securities t kinds cal secs) = true := by
  intro secs
  induction secs with
  | nil =>
    intro cal hmem
    exact absurd hmem (List.not_mem_nil s)
  | cons a rest ih =>
    intro cal hmem
    unfold add_all_securities
    cases hstep : add_security_events t kinds cal a with
    | error m => rfl
    | ok cal1 =>
      rcases List.mem_cons.mp hmem with heq | hmem2
      · subst heq
        have := add_security_events_error_of_bad t kinds cal s h hk
        rw [hstep] at this
        cases this
      · exact ih cal1 hmem2

/-- The end-to-end record of the spec scenario for claim C1. -/
def recC1 : Security :=
  { cusip := some "ABC123", securityType := some "Bill", securityTerm := some "13-Week",
    announcementDate := some "2024-01-04T00:00:00", auctionDate := some "2024-01-09T00:00:00" }

/-- The one auction event the C1 scenario produces. -/
def evC1 (t : Int) : Event :=
  { uid := "ABC123-auction@treasurydirect.gov", dtstamp := t,
    dtstart := .vDate (daysFromCivil 2024 1 9),
    summary := "13-Week Bill Auction",
    description := String.intercalate "\n" (auction_parts "ABC123" "13-Week" none none none none none),
    categories := ["Treasury", "Auction", "Bill"] }

/-- C1: for the record with cusip ABC123, securityType Bill, securityTerm
13-Week, announcementDate 2024-01-04T00:00:00 and auctionDate
2024-01-09T00:00:00, with requested kinds = auction only, generate_calendar
produces exactly one VEVENT, whose uid is ABC123-auction@treasurydirect.gov,
whose start is the date-only value 2024-01-09, whose summary is
"13-Week Bill Auction", whose description lines contain "CUSIP: ABC123"
and "Offering Amount: $TBD", and whose categories are
[Treasury, Auction, Bill] — whatever instant the clock reports. -/
theorem treasury_C1_end_to_end (t : Int) :
    generate_calendar t [recC1] ["auction"] = Except.ok
      { prodid := "-//Treasury Auction Calendar//elmotec.github.io//", version := "2.0",
        subcomponents := [evC1 t] } ∧
    (evC1 t).uid = "ABC123-auction@treasurydirect.gov" ∧
    (evC1 t).dtstart = ICalDate.vDate (daysFromCivil 2024 1 9) ∧
    (evC1 t).summary = "13-Week Bill Auction" ∧
    (evC1 t).description =
      String.intercalate "\n" (auction_parts "ABC123" "13-Week" none none none none none) ∧
    "CUSIP: ABC123" ∈ auction_parts "ABC123" "13-Week" none none none none none ∧
    "Offering Amount: $TBD" ∈ auction_parts "ABC123" "13-Week" none none none none none ∧
    (evC1 t).categories = ["Treasury", "Auction", "Bill"] :=
  ⟨rfl, rfl, rfl, rfl, rfl, by decide, by decide, rfl⟩

/-- C2: for every record carrying a cusip, whatever event
create_announcement_event and create_auction_event produce carries the
uid cusip-announcement@treasurydirect.gov respectively
cusip-auction@treasurydirect.gov, regardless of every other field value
and of the clock instant the mapping runs at. -/
theorem treasury_C2_uid_stability (t : Int) (s : Security) (c : String)
    (hc : s.cusip = some c) :
    (create_announcement_event t s).map Event.uid =
      (create_announcement_event t s).map (fun _ => c ++ "-announcement@treasurydirect.gov") ∧
    (create_auction_event t s).map Event.uid =
      (create_auction_event t s).map (fun _ => c ++ "-auction@treasurydirect.gov") := by
  obtain ⟨cu, ty, te, ad, aud, idate, md, oa, cc, cn⟩ := s
  have hc2 : cu = some c := hc
  subst hc2
  constructor
  · unfold create_announcement_event
    dsimp only
    cases ad with
    | none => rfl
    | some a =>
      dsimp only
      cases parse_date a with
      | none => rfl
      | some v =>
        cases te with
        | none => rfl
        | some te1 =>
          cases ty with
          | none => rfl
          | some ty1 =>
            cases aud with
            | none => rfl
            | some au1 => rfl
  · unfold create_auction_event
    dsimp only
    cases aud with
    | none => rfl
    | some au =>
      dsimp only
      cases parse_date au with
      | none => rfl
      | some v =>
        cases ad with
        | none => rfl
        | some a =>
          dsimp only
          cases parse_date a with
          | none => rfl
          | some v2 =>
            cases te with
            | none => rfl
            | some te1 =>
              cases ty with
              | none => rfl
              | some ty1 => rfl

/-- The record of the spec's unique-id example, used as the C2 witness. -/
def recC2 : Security :=
  { cusip := some "91282CJL6", securityType := some "Note", securityTerm := some "2-Year",
    announcementDate := some "2024-01-04T00:00:00", auctionDate := some "2024-01-09T00:00:00" }

/-- Witness for C2 at the record with cusip 91282CJL6. -/
theorem treasury_C2_uid_stability_witness :
    (create_announcement_event 0 recC2).map Event.uid =
      (create_announcement_event 0 recC2).map
        (fun _ => "91282CJL6" ++ "-announcement@treasurydirect.gov") ∧
    (create_auction_event 0 recC2).map Event.uid =
      (create_auction_event 0 recC2).map
        (fun _ => "91282CJL6" ++ "-auction@treasurydirect.gov") :=
  treasury_C2_uid_stability 0 recC2 "91282CJL6" rfl

/-- The record auctioned at midnight 2024-01-09, 7 calendar days before
2024-01-16. -/
def recC3 : Security := { auctionDate := some "2024-01-09T00:00:00" }

/-- C3 counterexample: with days_back = 7 and "now" fixed at
2024-01-16 15:00:00, the record whose auction date is exactly 7 calendar
days before "now" (2024-01-09, parsed to midnight) is excluded, because
filter_securities keeps the time-of-day of "now" in the cutoff instead
of comparing calendar dates. -/
theorem treasury_C3_boundary_counterexample :
    parse_date "2024-01-09T00:00:00" = some ((daysFromCivil 2024 1 16 - 7) * 86400) ∧
    filter_securities (daysFromCivil 2024 1 16 * 86400 + 54000) [recC3] 7 = .ok [] :=
  ⟨rfl, rfl⟩

/-- C3 amended: with days_back = 7 and a fixed "now" whose time-of-day is
midnight, a record whose auction date parses to exactly days_back days
before "now" is included and a record one day older is excluded (the
lower boundary is inclusive); when "now" has a later time-of-day the
record dated exactly days_back days back at midnight is excluded, since
the cutoff now - days_back days retains the time-of-day of "now". -/
theorem treasury_C3_boundary_amended (nowDay days_back : Int) (r1 r2 : Security) (s1 s2 : String)
    (h1 : r1.auctionDate = some s1)
    (hp1 : parse_date s1 = some ((nowDay - days_back) * 86400))
    (h2 : r2.auctionDate = some s2)
    (hp2 : parse_date s2 = some ((nowDay - days_back - 1) * 86400)) :
    filter_securities (nowDay * 86400) [r1, r2] days_back = .ok [r1] := by
  unfold filter_securities filter_securities_from
  rw [h1]
  dsimp only
  rw [hp1]
  dsimp only
  rw [if_pos (by omega)]
  unfold filter_securities_from
  rw [h2]
  dsimp only
  rw [hp2]
  dsimp only
  rw [if_neg (by omega)]
  rfl

/-- Record for the included side of the C3 witness. -/
def recC3w1 : Security := { auctionDate := some "2024-01-09T00:00:00" }

/-- Record for the excluded side of the C3 witness. -/
def recC3w2 : Security := { auctionDate := some "2024-01-08T00:00:00" }

/-- Witness for the amended C3 with "now" at midnight 2024-01-16. -/
theorem treasury_C3_boundary_amended_witness :
    filter_securities (19738 * 86400) [recC3w1, recC3w2] 7 = .ok [recC3w1] :=
  treasury_C3_boundary_amended 19738 7 recC3w1 recC3w2
    "2024-01-09T00:00:00" "2024-01-08T00:00:00" rfl rfl rfl rfl

/-- C5: when any record of the list has an auctionDate string that does
not parse, filter_securities fails as a whole — no record is silently
dropped — and the whole run exits with code 1, leaving the output file
untouched. -/
theorem treasury_C5_unparseable_date_fails (now t : Int) (g : GitEnv) (commit : Bool)
    (days_back : Int) (event_types : List String) (prior : Option Calendar)
    (secs : List Security) (s : Security) (str : String)
    (hmem : s ∈ secs) (hs : s.auctionDate = some str) (hp : parse_date str = none) :
    isError (filter_securities now secs days_back) = true ∧
    (main_run (.success secs) now t g commit days_back event_types prior).exitCode = 1 ∧
    (main_run (.success secs) now t g commit days_back event_types prior).outputFile = prior := by
  have hf : isError (filter_securities now secs days_back) = true :=
    filter_securities_from_error _ secs s str hs hp [] hmem
  refine ⟨hf, ?_, ?_⟩ <;>
    · unfold main_run fetch_treasury_data
      dsimp only
      cases hres : filter_securities now secs days_back with
      | error m => rfl
      | ok out =>
        rw [hres] at hf
        exact Bool.noConfusion hf

/-- A record whose auction date string Python cannot parse. -/
def recC5 : Security := { auctionDate := some "January 9, 2024" }

/-- Witness for C5 on a one-record list with an unparseable date. -/
theorem treasury_C5_unparseable_date_fails_witness :
    isError (filter_securities 0 [recC5] 7) = true ∧
    (main_run (.success [recC5]) 0 0
      { hasChanges := false, commitSucceeds := true, pushSucceeds := true }
      false 7 ["auction"] none).exitCode = 1 ∧
    (main_run (.success [recC5]) 0 0
      { hasChanges := false, commitSucceeds := true, pushSucceeds := true }
      false 7 ["auction"] none).outputFile = none :=
  treasury_C5_unparseable_date_fails 0 0
    { hasChanges := false, commitSucceeds := true, pushSucceeds := true }
    false 7 ["auction"] none [recC5] recC5 "January 9, 2024" (List.Mem.head _) rfl rfl

/-- C6: the generated calendar is the per-record concatenation, in input
order, of each record's events with announcement before auction; and
filter_securities keeps records as a subsequence of its input (stable
filter). -/
theorem treasury_C6_ordering :
    (∀ (t : Int) (secs : List Security) (kinds : List String),
      generate_calendar t secs kinds =
        (events_of_securities t kinds secs).map
          (fun evs => { prodid := "-//Treasury Auction Calendar//elmotec.github.io//",
                        version := "2.0", subcomponents := evs })) ∧
    (∀ (now : Int) (secs : List Security) (days_back : Int) (out : List Security),
      filter_securities now secs days_back = .ok out → List.Sublist out secs) := by
  constructor
  · intro t secs kinds
    unfold generate_calendar
    rw [add_all_securities_eq]
    rfl
  · intro now secs days_back out h
    obtain ⟨kept, hout, hsub⟩ := filter_securities_from_sublist _ secs [] out h
    rw [hout]
    exact hsub

/-- Record kept by the C6 witness filter run. -/
def recC6a : Security := { auctionDate := some "2024-02-13T00:00:00" }

/-- Record dropped by the C6 witness filter run. -/
def recC6b : Security := { auctionDate := some "2024-02-06T00:00:00" }

/-- Witness for C6: a concrete filter run keeps a subsequence. -/
theorem treasury_C6_ordering_witness : List.Sublist [recC6a] [recC6a, recC6b] :=
  treasury_C6_ordering.2 (19766 * 86400) [recC6a, recC6b] 3 [recC6a]
    (show filter_securities (19766 * 86400) [recC6a, recC6b] 3 = .ok [recC6a] from rfl)

/-- C7: on the same records and requested kinds, two runs of
generate_calendar at different clock instants produce identical
calendars once every event's dtstamp is erased. -/
theorem treasury_C7_determinism (t1 t2 : Int) (securities : List Security)
    (event_types : List String) :
    (generate_calendar t1 securities event_types).map eraseCalendarDtstamps =
      (generate_calendar t2 securities event_types).map eraseCalendarDtstamps :=
  add_all_securities_erase t1 t2 event_types securities _ _ rfl

/-- C8: when the fetch fails (network failure, timeout, or non-2xx HTTP
status), the run exits with code 1 and the output file keeps its prior
contents — the write step is never reached, whatever the other inputs. -/
theorem treasury_C8_fetch_failure (msg : String) (now t : Int) (g : GitEnv) (commit : Bool)
    (days_back : Int) (event_types : List String) (prior : Option Calendar) :
    (main_run (.failure msg) now t g commit days_back event_types prior).exitCode = 1 ∧
    (main_run (.failure msg) now t g commit days_back event_types prior).outputFile = prior :=
  ⟨rfl, rfl⟩

/-- C9: create_auction_event parses announcementDate even though the
parsed value never reaches the produced event, so a record whose
announcementDate is missing or unparseable makes the auction event — and
any generate_calendar run covering the record with auction events
requested — fail. -/
theorem treasury_C9_announcement_parse_required (t : Int) (kinds : List String)
    (secs : List Security) (s : Security) (hbad : badAnnouncementDate s)
    (hmem : s ∈ secs) (hk : kinds.contains "auction" = true) :
    isError (create_auction_event t s) = true ∧
    isError (generate_calendar t secs kinds) = true := by
  refine ⟨create_auction_event_error_of_bad t s hbad, ?_⟩
  unfold generate_calendar
  exact add_all_securities_error_of_bad t kinds s hbad hk secs _ hmem

/-- A record with a fine auctionDate but no announcementDate. -/
def recC9 : Security :=
  { cusip := some "912810TM0", securityType := some "Bond", securityTerm := some "30-Year",
    auctionDate := some "2024-02-07T00:00:00" }

/-- Witness for C9: auction-only generation still fails on the record. -/
theorem treasury_C9_announcement_parse_required_witness :
    isError (create_auction_event 0 recC9) = true ∧
    isError (generate_calendar 0 [recC9] ["auction"]) = true :=
  treasury_C9_announcement_parse_required 0 ["auction"] [recC9] recC9
    (Or.inl rfl) (List.Mem.head _) rfl

/-- A truthy value appended under its label is one of the lines. -/
theorem mem_appendIfTruthy_self (parts : List String) (m label : String) (hm : m ≠ "") :
    (label ++ m) ∈ appendIfTruthy parts (some m) label := by
  simp [appendIfTruthy, hm]

/-- A nonempty maturity date puts its first ten characters on the
announcement description's maturity line. -/
theorem mem_maturity_announcement (aucD c : String) (oa : Option String) (m : String)
    (hm : m ≠ "") :
    ("Maturity Date: " ++ strTake m 10) ∈ announcement_parts aucD c oa (some m) := by
  simp [announcement_parts, hm]

/-- The offering line is among the announcement description lines
whatever the maturityDate holds. -/
theorem mem_offering_announcement (aucD c : String) (md : Option String) :
    "Offering Amount: $TBD" ∈ announcement_parts aucD c none md := by
  unfold announcement_parts
  cases md with
  | none => exact List.Mem.tail _ (List.Mem.tail _ (List.Mem.head _))
  | some m =>
    dsimp only
    split
    · exact List.Mem.tail _ (List.Mem.tail _ (List.Mem.head _))
    · exact List.mem_append_left _ (List.Mem.tail _ (List.Mem.tail _ (List.Mem.head _)))

/-- C4: for every record meeting the required-field contract, two
independent conditionals hold in both mappers: if offeringAmount is
absent the description renders the literal line "Offering Amount: $TBD",
and if maturityDate is absent the maturity line is omitted entirely — no
description line starts with the maturity label — each regardless of the
other optional fields. -/
theorem treasury_C4_optional_fields (t : Int) (s : Security) (c term aucD : String)
    (hc : s.cusip = some c) (hterm : s.securityTerm = some term)
    (hauc : s.auctionDate = some aucD) :
    ((create_announcement_event t s).map Event.description =
        (create_announcement_event t s).map (fun _ =>
          String.intercalate "\n"
            (announcement_parts aucD c s.offeringAmount s.maturityDate)) ∧
      (s.offeringAmount = none →
        "Offering Amount: $TBD" ∈ announcement_parts aucD c s.offeringAmount s.maturityDate) ∧
      (s.maturityDate = none →
        hasMaturityLine (announcement_parts aucD c s.offeringAmount s.maturityDate) = false)) ∧
    ((create_auction_event t s).map Event.description =
        (create_auction_event t s).map (fun _ =>
          String.intercalate "\n" (auction_parts c term s.offeringAmount
            s.closingTimeCompetitive s.closingTimeNoncompetitive
            s.issueDate s.maturityDate)) ∧
      (s.offeringAmount = none →
        "Offering Amount: $TBD" ∈ auction_parts c term s.offeringAmount
          s.closingTimeCompetitive s.closingTimeNoncompetitive
          s.issueDate s.maturityDate) ∧
      (s.maturityDate = none →
        hasMaturityLine (auction_parts c term s.offeringAmount
          s.closingTimeCompetitive s.closingTimeNoncompetitive
          s.issueDate s.maturityDate) = false)) := by
  obtain ⟨cu, ty, te, ad, aud, idate, md, oa, cc, cn⟩ := s
  have hc2 : cu = some c := hc
  have hterm2 : te = some term := hterm
  have hauc2 : aud = some aucD := hauc
  subst hc2 hterm2 hauc2
  refine ⟨⟨?_, ?_, ?_⟩, ⟨?_, ?_, ?_⟩⟩
  · unfold create_announcement_event
    dsimp only
    cases ad with
    | none => rfl
    | some a =>
      dsimp only
      cases parse_date a with
      | none => rfl
      | some v =>
        cases ty with
        | none => rfl
        | some ty1 => rfl
  · intro hOff
    have hOff2 : oa = none := hOff
    subst hOff2
    exact mem_offering_announcement aucD c md
  · intro hMat
    have hMat2 : md = none := hMat
    subst hMat2
    exact hasMaturityLine_announcement_none aucD c oa
  · unfold create_auction_event
    dsimp only
    cases parse_date aucD with
    | none => rfl
    | some v =>
      cases ad with
      | none => rfl
      | some a =>
        dsimp only
        cases parse_date a with
        | none => rfl
        | some v2 =>
          cases ty with
          | none => rfl
          | some ty1 => rfl
  · intro hOff
    have hOff2 : oa = none := hOff
    subst hOff2
    exact mem_appendIfTruthy _ md _ _ (mem_appendIfTruthy _ idate _ _
      (mem_appendIfTruthy _ cn _ _ (mem_appendIfTruthy _ cc _ _
        (List.Mem.tail _ (List.Mem.tail _ (List.Mem.head _))))))
  · intro hMat
    have hMat2 : md = none := hMat
    subst hMat2
    exact hasMaturityLine_auction_none c term oa cc cn idate

/-- A record with every required field and no optional field. -/
def recC4 : Security :=
  { cusip := some "912796YT6", securityType := some "Bill", securityTerm := some "4-Week",
    announcementDate := some "2024-01-02T00:00:00", auctionDate := some "2024-01-04T00:00:00" }

/-- Witness for C4: at a concrete record the required-field hypotheses
and both conditionals' antecedents are discharged. -/
theorem treasury_C4_optional_fields_witness :
    "Offering Amount: $TBD" ∈ announcement_parts "2024-01-04T00:00:00" "912796YT6" none none ∧
    hasMaturityLine (announcement_parts "2024-01-04T00:00:00" "912796YT6" none none) = false ∧
    "Offering Amount: $TBD" ∈ auction_parts "912796YT6" "4-Week" none none none none none ∧
    hasMaturityLine (auction_parts "912796YT6" "4-Week" none none none none none) = false :=
  ⟨(treasury_C4_optional_fields 0 recC4 "912796YT6" "4-Week" "2024-01-04T00:00:00"
      rfl rfl rfl).1.2.1 rfl,
   (treasury_C4_optional_fields 0 recC4 "912796YT6" "4-Week" "2024-01-04T00:00:00"
      rfl rfl rfl).1.2.2 rfl,
   (treasury_C4_optional_fields 0 recC4 "912796YT6" "4-Week" "2024-01-04T00:00:00"
      rfl rfl rfl).2.2.1 rfl,
   (treasury_C4_optional_fields 0 recC4 "912796YT6" "4-Week" "2024-01-04T00:00:00"
      rfl rfl rfl).2.2.2 rfl⟩

/-- A record whose maturityDate is present but empty, so Python's
truthiness guard drops the maturity line in both mappers. -/
def recC10e : Security :=
  { cusip := some "912797KF0", securityType := some "Bill", securityTerm := some "13-Week",
    announcementDate := some "2024-01-04T00:00:00", auctionDate := some "2024-01-09T00:00:00",
    maturityDate := some "" }

/-- C10 counterexample: a record with maturityDate present (the empty
string) whose events show no maturity line at all — in particular not
the line "Maturity Date: " followed by the first ten characters — so the
claim fails for a record with maturityDate present. -/
theorem treasury_C10_counterexample :
    recC10e.maturityDate = some "" ∧
    (create_announcement_event 0 recC10e).map Event.description =
      .ok "Auction Date: 2024-01-09T00:00:00\nCUSIP: 912797KF0\nOffering Amount: $TBD" ∧
    (create_auction_event 0 recC10e).map Event.description =
      .ok "CUSIP: 912797KF0\nSecurity Term: 13-Week\nOffering Amount: $TBD" ∧
    ("Maturity Date: " ++ strTake "" 10) ∉
      announcement_parts "2024-01-09T00:00:00" "912797KF0" none (some "") ∧
    ("Maturity Date: " ++ "") ∉
      auction_parts "912797KF0" "13-Week" none none none none (some "") ∧
    hasMaturityLine (announcement_parts "2024-01-09T00:00:00" "912797KF0" none (some "")) = false ∧
    hasMaturityLine (auction_parts "912797KF0" "13-Week" none none none none (some "")) = false :=
  ⟨rfl, rfl, rfl, by decide, by decide, by decide, by decide⟩

/-- C10 amended: for every record whose maturityDate is present and
nonempty, the announcement description's maturity line shows only the
first ten characters of the field while the auction description's
maturity line shows the whole string; a present-but-empty maturityDate
is falsy in Python, so both mappers omit the line entirely. -/
theorem treasury_C10_maturity_rendering (t : Int) (s : Security) (c term aucD m : String)
    (hc : s.cusip = some c) (hterm : s.securityTerm = some term)
    (hauc : s.auctionDate = some aucD)
    (hMat : s.maturityDate = some m) (hm : m ≠ "") :
    ((create_announcement_event t s).map Event.description =
        (create_announcement_event t s).map (fun _ =>
          String.intercalate "\n" (announcement_parts aucD c s.offeringAmount (some m))) ∧
      ("Maturity Date: " ++ strTake m 10) ∈
        announcement_parts aucD c s.offeringAmount (some m)) ∧
    ((create_auction_event t s).map Event.description =
        (create_auction_event t s).map (fun _ =>
          String.intercalate "\n" (auction_parts c term s.offeringAmount
            s.closingTimeCompetitive s.closingTimeNoncompetitive s.issueDate (some m))) ∧
      ("Maturity Date: " ++ m) ∈ auction_parts c term s.offeringAmount
        s.closingTimeCompetitive s.closingTimeNoncompetitive s.issueDate (some m)) := by
  obtain ⟨cu, ty, te, ad, aud, idate, md, oa, cc, cn⟩ := s
  have hc2 : cu = some c := hc
  have hterm2 : te = some term := hterm
  have hauc2 : aud = some aucD := hauc
  have hMat2 : md = some m := hMat
  subst hc2 hterm2 hauc2 hMat2
  refine ⟨⟨?_, mem_maturity_announcement aucD c oa m hm⟩,
    ⟨?_, mem_appendIfTruthy_self _ m "Maturity Date: " hm⟩⟩
  · unfold create_announcement_event
    dsimp only
    cases ad with
    | none => rfl
    | some a =>
      dsimp only
      cases parse_date a with
      | none => rfl
      | some v =>
        cases ty with
        | none => rfl
        | some ty1 => rfl
  · unfold create_auction_event
    dsimp only
    cases parse_date aucD with
    | none => rfl
    | some v =>
      cases ad with
      | none => rfl
      | some a =>
        dsimp only
        cases parse_date a with
        | none => rfl
        | some v2 =>
          cases ty with
          | none => rfl
          | some ty1 => rfl

/-- A record with a long nonempty maturity date. -/
def recC10w : Security :=
  { cusip := some "91282CJS1", securityType := some "Note", securityTerm := some "2-Year",
    announcementDate := some "2024-01-18T00:00:00", auctionDate := some "2024-01-23T00:00:00",
    maturityDate := some "2026-01-31T00:00:00" }

/-- Witness for the amended C10 on a nonempty maturityDate. -/
theorem treasury_C10_maturity_rendering_witness :
    ((create_announcement_event 0 recC10w).map Event.description =
        (create_announcement_event 0 recC10w).map (fun _ =>
          String.intercalate "\n" (announcement_parts "2024-01-23T00:00:00" "91282CJS1" none
            (some "2026-01-31T00:00:00"))) ∧
      ("Maturity Date: " ++ strTake "2026-01-31T00:00:00" 10) ∈
        announcement_parts "2024-01-23T00:00:00" "91282CJS1" none
          (some "2026-01-31T00:00:00")) ∧
    ((create_auction_event 0 recC10w).map Event.description =
        (create_auction_event 0 recC10w).map (fun _ =>
          String.intercalate "\n" (auction_parts "91282CJS1" "2-Year" none none none none
            (some "2026-01-31T00:00:00"))) ∧
      ("Maturity Date: " ++ "2026-01-31T00:00:00") ∈ auction_parts "91282CJS1" "2-Year"
        none none none none (some "2026-01-31T00:00:00")) :=
  treasury_C10_maturity_rendering 0 recC10w "91282CJS1" "2-Year" "2024-01-23T00:00:00"
    "2026-01-31T00:00:00" rfl rfl rfl rfl (by decide)
